import Mathlib

/-!
# pnp-vendorize: the bootstrap module `src/index.mjs`

A shallow embedding of the top level of `src/index.mjs`: the Plug'n'Play
availability guard, the lookup of the owning package, the validation of the
`vendorize` block of `package.json` and the assembly of the `Config` handed to
`new Vendorize(config)`.

The module is straight-line code with early `throw`s, so it is embedded as a
function from its surroundings (`Env`) to an `Outcome`: the ordered list of
calls it made to its collaborators together with either the error that aborted
it or the configuration it exported.
-/

namespace PnpVendorize

/-! ## JavaScript values -/

/-- The JavaScript values that flow through `index.mjs`: what `JSON.parse`
produces for `package.json`, the locator and package information objects of the
PnP API, and `undefined` for a property that is not there.  A number is kept as
the decimal literal `mantissa * 10 ^ exponent`; the module never inspects one.
An object is the list of its own properties. -/
inductive JsValue where
  | undefined
  | null
  | bool (b : Bool)
  | num (mantissa exponent : Int)
  | str (s : String)
  | arr (items : List JsValue)
  | obj (fields : List (String × JsValue))

/-- What aborts the module.  `thrown` is a `throw new Error(message)` written in
`index.mjs`; `typeError` is a `TypeError` raised by the engine while it
evaluates an expression of `index.mjs` (the operator and the property name are
kept, the engine's wording is not); `external` is anything thrown inside a
collaborator (`pnpapi`, `require`). -/
inductive JsError where
  | thrown (message : String)
  | typeError (operator property : String)
  | external (description : String)

namespace JsValue

/-- `Array.isArray(v)`. -/
def isArray : JsValue → Bool
  | arr _ => true
  | _ => false

/-- `typeof v`. -/
def typeOf : JsValue → String
  | undefined => "undefined"
  | null => "object"
  | bool _ => "boolean"
  | num _ _ => "number"
  | str _ => "string"
  | arr _ => "object"
  | obj _ => "object"

/-- `key in v`.  The right operand must be an object, otherwise the engine
raises a `TypeError`.  Own properties only: the property names `index.mjs`
asks for (`vendorize`, `packages`, `dirName`, `cleanBefore`, `gitIgnore`) are
neither array indices nor members of `Object.prototype` or `Array.prototype`. -/
def hasProperty (key : String) : JsValue → Except JsError Bool
  | obj fields => .ok (fields.lookup key).isSome
  | arr _ => .ok false
  | _ => .error (.typeError "in" key)

/-- `v.key` (and `v[key]`).  Reading a property of `null` or `undefined` raises
a `TypeError`; a property that is not there reads as `undefined`.  As for
`hasProperty`, only own properties matter for the names `index.mjs` reads
(those above, `name` and `packageLocation`). -/
def get (key : String) : JsValue → Except JsError JsValue
  | obj fields => .ok ((fields.lookup key).getD undefined)
  | undefined => .error (.typeError "." key)
  | null => .error (.typeError "." key)
  | _ => .ok undefined

end JsValue

/-! ## The `Config` class -/

/-- Modelled from the spec: the `Config` class of `./config.mjs`, which is not
among the sources.  The spec gives `VendorConfig` as
`{ ownerName, requests, dirName = "vendor", cleanBefore = false,
gitIgnore = true }`; `index.mjs` writes `dirName`, `cleanBefore` and
`gitIgnore` by plain assignment, so they are plain fields holding any value. -/
structure Config where
  ownerName : JsValue
  requests : JsValue
  dirName : JsValue := .str "vendor"
  cleanBefore : JsValue := .bool false
  gitIgnore : JsValue := .bool true

/-- Modelled from the spec: `new Config(packageName, packages)` of
`./config.mjs`; the three optional fields start at their documented
defaults. -/
def Config.new (packageName packages : JsValue) : Config :=
  { ownerName := packageName, requests := packages }

/-! ## Outcomes -/

/-- The calls `index.mjs` makes to its collaborators, in the order it makes
them. -/
inductive Event where
  | importPnpapi
  | findPackageLocator
  | getPackageInformation (locator : JsValue)
  | requirePackageJson (packageLocation : JsValue)
  | newConfig (packageName packages : JsValue)
  | assign (field : String) (value : JsValue)
  | newVendorize (config : Config)

namespace Event

def isNewConfig : Event → Bool
  | newConfig _ _ => true
  | _ => false

def isNewVendorize : Event → Bool
  | newVendorize _ => true
  | _ => false

/-- An assignment `config.field = ...`. -/
def isAssignTo (field : String) : Event → Bool
  | assign f _ => f == field
  | _ => false

/-- A call into the PnP API or a read of `package.json`. -/
def isPnpOrRead : Event → Bool
  | importPnpapi => true
  | findPackageLocator => true
  | getPackageInformation _ => true
  | requirePackageJson _ => true
  | _ => false

end Event

/-- A (partial) evaluation of the module: the calls made so far and either the
error that aborted it or the value computed. -/
structure Outcome (α : Type) where
  trace : List Event
  result : Except JsError α

namespace Outcome

def pure {α : Type} (a : α) : Outcome α := ⟨[], .ok a⟩

/-- Sequencing: a statement that aborts ends the evaluation, keeping the calls
made until then. -/
def bind {α β : Type} (x : Outcome α) (f : α → Outcome β) : Outcome β :=
  match x.result with
  | .error e => ⟨x.trace, .error e⟩
  | .ok a => ⟨x.trace ++ (f a).trace, (f a).result⟩

instance : Monad Outcome where
  pure := Outcome.pure
  bind := Outcome.bind

/-- `throw new Error(message)`. -/
def throwNew {α : Type} (message : String) : Outcome α := ⟨[], .error (.thrown message)⟩

/-- An expression of `index.mjs` that the engine may refuse to evaluate. -/
def eval {α : Type} (x : Except JsError α) : Outcome α := ⟨[], x⟩

/-- A call to a collaborator: recorded, then its result (or exception). -/
def call {α : Type} (ev : Event) (x : Except String α) : Outcome α :=
  ⟨[ev], match x with
    | .ok a => .ok a
    | .error d => .error (.external d)⟩

/-- The operator `a && b`: `b` is evaluated only when `a` is true. -/
def and (a : Bool) (b : Outcome Bool) : Outcome Bool :=
  if a then b else Outcome.pure false

/-- A call that `index.mjs` makes into code of this package (`Config`,
`Vendorize`), recorded. -/
def emit (ev : Event) : Outcome Unit := ⟨[ev], .ok ()⟩

end Outcome

open Outcome

/-! ## `index.mjs` -/

/-- What the module finds around it. -/
structure Env where
  /-- Whether `'pnp' in process.versions`. -/
  versionsHasPnp : Bool
  /-- The dynamic `import('pnpapi')`. -/
  importPnpapi : Except String Unit
  /-- The result of `pnp.findPackageLocator(process.cwd())`: a locator, or
  `null` when the directory belongs to no package. -/
  findPackageLocator : Except String JsValue
  /-- The function `pnp.getPackageInformation`. -/
  getPackageInformation : JsValue → Except String JsValue
  /-- The function mapping `packageInfo.packageLocation` to the parsed
  `package.json` found there:
  `createRequire(location)(location + "/package.json")`. -/
  requirePackageJson : JsValue → Except String JsValue

/-- The package.json key containing vendorize configuration (line 26). -/
def packageKey : String := "vendorize"

/-- Lines 8 to 59: the PnP guard, the locator of the owning package and its
`package.json`. -/
def locate (env : Env) : Outcome (JsValue × JsValue) := do
  if !env.versionsHasPnp then
    throwNew "Vendorize requires the Plug'n'Play (PnP) API."
  call .importPnpapi env.importPnpapi
  let packageLocator ← call .findPackageLocator env.findPackageLocator
  if packageLocator.typeOf == "null" then
    throwNew "Could not find the current package location to vendorize into."
  let packageInfo ←
    call (.getPackageInformation packageLocator) (env.getPackageInformation packageLocator)
  let packageLocation ← eval (packageInfo.get "packageLocation")
  let packageJson ←
    call (.requirePackageJson packageLocation) (env.requirePackageJson packageLocation)
  return (packageLocator, packageJson)

/-- Lines 82 to 92, one of the three optional fields: `config.field` is
assigned when `field in packageJson[packageKey]`. -/
def override (block : JsValue) (field : String) (set : JsValue → Config → Config)
    (config : Config) : Outcome Config := do
  if ← eval (block.hasProperty field) then
    let value ← eval (block.get field)
    emit (.assign field value)
    return set value config
  else
    return config

/-- Lines 61 to 94: the missing-key check, the shape check, the construction of
the `Config`, the three optional overrides and the export of
`new Vendorize(config)`.  `block` is `packageJson[packageKey]`, which the source
reads again at each use (a read of a parsed JSON object has no effect).  The
result is the configuration handed to `Vendorize`. -/
def assemble (packageLocator packageJson : JsValue) : Outcome Config := do
  if !(← eval (packageJson.hasProperty packageKey)) then
    throwNew ("No \"" ++ packageKey ++ "\" found for this package.'")
  let block ← eval (packageJson.get packageKey)
  if ← and (!block.isArray) (do return !(← eval (block.hasProperty "packages"))) then
    throwNew ("'" ++ packageKey ++
      "' must either be an array or an object containing a \"packages\" key.")
  let packageName ← eval (packageLocator.get "name")
  let packages ← if block.isArray then Outcome.pure block else eval (block.get "packages")
  emit (.newConfig packageName packages)
  let config := Config.new packageName packages
  let config ← override block "dirName" (fun v c => { c with dirName := v }) config
  let config ← override block "cleanBefore" (fun v c => { c with cleanBefore := v }) config
  let config ← override block "gitIgnore" (fun v c => { c with gitIgnore := v }) config
  emit (.newVendorize config)
  return config

/-- The whole module. -/
def main (env : Env) : Outcome Config := do
  let (packageLocator, packageJson) ← locate env
  assemble packageLocator packageJson

/-! ## Words of the specification -/

/-- A `vendorize` value is valid when it is an array or an object containing a
`packages` key. -/
def validBlock : JsValue → Prop
  | .arr _ => True
  | .obj fields => (fields.lookup "packages").isSome
  | _ => False

/-- The entry of a block under a key: its value when the block is an object that
has the key, nothing otherwise. -/
def entry (key : String) : JsValue → Option JsValue
  | .obj fields => fields.lookup key
  | _ => none

/-- The request list of a block: the block itself when it is an array, the
value of its `packages` key when it is a non-array object. -/
def requestList : JsValue → JsValue
  | .arr items => .arr items
  | .obj fields => (fields.lookup "packages").getD .undefined
  | _ => .undefined

/-- The three optional fields of a block. -/
inductive OptionalField where
  | dirName
  | cleanBefore
  | gitIgnore

namespace OptionalField

def key : OptionalField → String
  | dirName => "dirName"
  | cleanBefore => "cleanBefore"
  | gitIgnore => "gitIgnore"

def read : OptionalField → Config → JsValue
  | dirName, c => c.dirName
  | cleanBefore, c => c.cleanBefore
  | gitIgnore, c => c.gitIgnore

/-- The documented defaults: `dirName = "vendor"`, `cleanBefore = false`,
`gitIgnore = true`. -/
def documentedDefault : OptionalField → JsValue
  | dirName => .str "vendor"
  | cleanBefore => .bool false
  | gitIgnore => .bool true

end OptionalField

/-- The configuration the specification expects for a valid block: the owner
name, the request list, and each optional field at the supplied value when the
block has its key and at the documented default otherwise. -/
def expectedConfig (name block : JsValue) : Config :=
  { ownerName := name
    requests := requestList block
    dirName := (entry "dirName" block).getD (.str "vendor")
    cleanBefore := (entry "cleanBefore" block).getD (.bool false)
    gitIgnore := (entry "gitIgnore" block).getD (.bool true) }

/-- The assignment made for one optional field of a block. -/
def expectedAssign (key : String) (block : JsValue) : List Event :=
  ((entry key block).map (Event.assign key)).toList

/-- The evaluation the specification expects for a valid block. -/
def expectedOutcome (name block : JsValue) : Outcome Config :=
  ⟨.newConfig name (requestList block) ::
      (expectedAssign "dirName" block ++ (expectedAssign "cleanBefore" block ++
        (expectedAssign "gitIgnore" block ++ [.newVendorize (expectedConfig name block)]))),
    .ok (expectedConfig name block)⟩

/-! ## Sample surroundings -/

/-- A locator as `findPackageLocator` returns it. -/
def sampleLocator : JsValue :=
  .obj [("name", .str "my-project"), ("reference", .str "workspace:.")]

/-- Surroundings with the PnP API, a located package and the given
`package.json`. -/
def sampleEnv (packageJson : JsValue) : Env where
  versionsHasPnp := true
  importPnpapi := .ok ()
  findPackageLocator := .ok sampleLocator
  getPackageInformation := fun _ => .ok (.obj [("packageLocation", .str "/work/my-project/")])
  requirePackageJson := fun _ => .ok packageJson

/-- A `package.json` whose block is an array. -/
def arrayManifest : JsValue :=
  .obj [("name", .str "my-project"), ("vendorize", .arr [.str "left-pad"])]

/-- A `package.json` whose block is an object that sets `cleanBefore` and sets
`gitIgnore` to `false`. -/
def objectManifest : JsValue :=
  .obj [("name", .str "my-project"), ("version", .str "1.0.0"),
    ("vendorize", .obj [("packages", .arr [.str "left-pad"]), ("cleanBefore", .bool true),
      ("gitIgnore", .bool false), ("comment", .str "kept for the release")])]

/-- A `package.json` without the `vendorize` key. -/
def bareManifest : JsValue :=
  .obj [("name", .str "my-project")]

/-- Surroundings without the PnP API. -/
def nodeModulesEnv : Env where
  versionsHasPnp := false
  importPnpapi := .error "Cannot find package pnpapi"
  findPackageLocator := .error "pnp is not defined"
  getPackageInformation := fun _ => .error "pnp is not defined"
  requirePackageJson := fun _ => .ok bareManifest

/-! ## Sequencing lemmas -/

theorem eval_ok_bind {α β : Type} (a : α) (f : α → Outcome β) :
    (eval (.ok a) >>= f) = f a := rfl

theorem eval_error_bind {α β : Type} (e : JsError) (f : α → Outcome β) :
    (eval (.error e) >>= f) = ⟨[], .error e⟩ := rfl

theorem pure_bind_outcome {α β : Type} (a : α) (f : α → Outcome β) :
    (Pure.pure a >>= f) = f a := rfl

theorem pure_trace {α : Type} (a : α) : (Pure.pure a : Outcome α).trace = [] := rfl

theorem pure_result {α : Type} (a : α) : (Pure.pure a : Outcome α).result = .ok a := rfl

theorem call_ok_bind {α β : Type} (ev : Event) (a : α) (f : α → Outcome β) :
    (call ev (.ok a) >>= f) = ⟨ev :: (f a).trace, (f a).result⟩ := rfl

theorem call_error_bind {α β : Type} (ev : Event) (d : String) (f : α → Outcome β) :
    (call ev (.error d) >>= f) = ⟨[ev], .error (.external d)⟩ := rfl

theorem bind_trace_of_ok {α β : Type} (x : Outcome α) (f : α → Outcome β) (a : α)
    (h : x.result = .ok a) : (x >>= f).trace = x.trace ++ (f a).trace := by
  show (Outcome.bind x f).trace = _
  unfold Outcome.bind
  rw [h]

theorem bind_result_of_ok {α β : Type} (x : Outcome α) (f : α → Outcome β) (a : α)
    (h : x.result = .ok a) : (x >>= f).result = (f a).result := by
  show (Outcome.bind x f).result = _
  unfold Outcome.bind
  rw [h]

theorem bind_of_error {α β : Type} (x : Outcome α) (f : α → Outcome β) (e : JsError)
    (h : x.result = .error e) : (x >>= f) = ⟨x.trace, .error e⟩ := by
  show Outcome.bind x f = _
  unfold Outcome.bind
  rw [h]

/-! ## The assembly, case by case -/

/-- `typeof v` is never the string `"null"`. -/
theorem typeOf_ne_null (v : JsValue) : (v.typeOf == "null") = false := by
  cases v <;> rfl

/-- No `vendorize` key: the first check throws. -/
theorem assemble_missing_key (packageLocator : JsValue) (fields : List (String × JsValue))
    (hkey : fields.lookup "vendorize" = none) :
    assemble packageLocator (.obj fields) =
      ⟨[], .error (.thrown "No \"vendorize\" found for this package.'")⟩ := by
  simp only [assemble, JsValue.hasProperty, packageKey, hkey]
  rfl

/-- A block of valid shape: the evaluation is the expected one, once the
locator's name has been read. -/
theorem assemble_valid (packageLocator name block : JsValue)
    (fields : List (String × JsValue))
    (hname : packageLocator.get "name" = .ok name)
    (hkey : fields.lookup "vendorize" = some block) (hv : validBlock block) :
    assemble packageLocator (.obj fields) = expectedOutcome name block := by
  cases block with
  | arr items =>
    simp only [assemble, hname]
    simp only [JsValue.hasProperty, JsValue.get, packageKey, hkey]
    rfl
  | obj bf =>
    simp only [validBlock] at hv
    obtain ⟨p, hp⟩ := Option.isSome_iff_exists.mp hv
    simp only [assemble, hname]
    simp only [override, Outcome.and, JsValue.hasProperty, JsValue.get, packageKey, hkey, hp,
      expectedOutcome, expectedConfig, expectedAssign, entry, requestList, eval_ok_bind,
      Option.isSome_some, Option.getD_some, Bool.not_true, Bool.not_false, Bool.false_eq_true,
      if_false, if_true, pure_bind_outcome, JsValue.isArray]
    cases bf.lookup "dirName" <;> cases bf.lookup "cleanBefore" <;>
      cases bf.lookup "gitIgnore" <;> rfl
  | _ => exact absurd hv (by simp [validBlock])

/-- A block of valid shape under a locator without properties (`null` or
`undefined`): reading its name raises a `TypeError`. -/
theorem assemble_valid_no_name (packageLocator block : JsValue) (e : JsError)
    (fields : List (String × JsValue))
    (hname : packageLocator.get "name" = .error e)
    (hkey : fields.lookup "vendorize" = some block) (hv : validBlock block) :
    assemble packageLocator (.obj fields) = ⟨[], .error e⟩ := by
  cases block with
  | arr items =>
    simp only [assemble, hname]
    simp only [JsValue.hasProperty, JsValue.get, packageKey, hkey]
    rfl
  | obj bf =>
    simp only [validBlock] at hv
    obtain ⟨p, hp⟩ := Option.isSome_iff_exists.mp hv
    simp only [assemble, hname]
    simp only [Outcome.and, JsValue.hasProperty, JsValue.get, packageKey, hkey, hp,
      eval_ok_bind, Option.isSome_some, Option.getD_some, Bool.not_true, Bool.not_false,
      Bool.false_eq_true, if_false, if_true, pure_bind_outcome, JsValue.isArray]
    rfl
  | _ => exact absurd hv (by simp [validBlock])

/-- A block of any other shape: nothing is called, and the module aborts either
with the engine's `TypeError` for `in` or with the descriptive error. -/
theorem assemble_invalid (packageLocator block : JsValue) (fields : List (String × JsValue))
    (hkey : fields.lookup "vendorize" = some block) (hv : ¬ validBlock block) :
    assemble packageLocator (.obj fields) = ⟨[], .error (.typeError "in" "packages")⟩ ∨
      assemble packageLocator (.obj fields) = ⟨[], .error (.thrown
        "'vendorize' must either be an array or an object containing a \"packages\" key.")⟩ := by
  cases block with
  | arr items => exact absurd trivial hv
  | obj bf =>
    simp only [validBlock] at hv
    have hp : bf.lookup "packages" = none := by
      cases h : bf.lookup "packages" with
      | none => rfl
      | some p => rw [h] at hv; exact absurd rfl hv
    simp only [assemble, Outcome.and, JsValue.hasProperty, JsValue.get, packageKey, hkey,
      eval_ok_bind, Option.isSome_some, Option.getD_some, Bool.not_true, Bool.not_false,
      Bool.false_eq_true, if_false, if_true, pure_bind_outcome, JsValue.isArray, hp]
    exact Or.inr rfl
  | _ =>
    simp only [assemble, Outcome.and, JsValue.hasProperty, JsValue.get, packageKey, hkey,
      eval_ok_bind, Option.isSome_some, Option.getD_some, Bool.not_true, Bool.not_false,
      Bool.false_eq_true, if_false, if_true, pure_bind_outcome, JsValue.isArray]
    exact Or.inl rfl

/-- The only error `v.key` can raise is the engine's `TypeError`. -/
theorem get_error (v : JsValue) (key : String) (e : JsError) (h : v.get key = .error e) :
    e = .typeError "." key := by
  cases v <;> simp_all [JsValue.get]

/-- A block of valid shape without the key has no entry under it. -/
theorem entry_of_absent (block : JsValue) (key : String)
    (h : block.hasProperty key = .ok false) : entry key block = none := by
  cases block with
  | obj bf =>
    simp only [JsValue.hasProperty, Except.ok.injEq] at h
    simp only [entry]
    cases hl : bf.lookup key with
    | none => rfl
    | some v => rw [hl] at h; exact absurd h (by simp)
  | _ => rfl

/-- A block with the key has the value read under it as its entry. -/
theorem entry_of_present (block value : JsValue) (key : String)
    (hp : block.hasProperty key = .ok true) (hg : block.get key = .ok value) :
    entry key block = some value := by
  cases block with
  | obj bf =>
    simp only [JsValue.hasProperty, Except.ok.injEq] at hp
    simp only [JsValue.get, Except.ok.injEq] at hg
    simp only [entry]
    cases hl : bf.lookup key with
    | none => rw [hl] at hp; exact absurd hp (by simp)
    | some v => rw [hl] at hg; simpa using hg
  | arr items => simp [JsValue.hasProperty] at hp
  | _ => simp [JsValue.hasProperty] at hp

/-- Every `throw new Error(...)` that can end the assembly carries one of the
two configuration messages. -/
theorem assemble_thrown (packageLocator packageJson : JsValue) (m : String)
    (h : (assemble packageLocator packageJson).result = .error (.thrown m)) :
    m = "No \"vendorize\" found for this package.'" ∨
      m = "'vendorize' must either be an array or an object containing a \"packages\" key." := by
  cases packageJson with
  | obj fields =>
    cases hkey : fields.lookup "vendorize" with
    | none =>
      rw [assemble_missing_key _ _ hkey] at h
      simp only [Except.error.injEq, JsError.thrown.injEq] at h
      exact Or.inl h.symm
    | some block =>
      by_cases hv : validBlock block
      · cases hname : packageLocator.get "name" with
        | ok name =>
          rw [assemble_valid _ _ _ _ hname hkey hv] at h
          simp [expectedOutcome] at h
        | error e =>
          rw [assemble_valid_no_name _ _ _ _ hname hkey hv] at h
          have he := get_error _ _ _ hname
          subst he
          simp at h
      · rcases assemble_invalid packageLocator block fields hkey hv with h1 | h1
        · rw [h1] at h
          simp at h
        · rw [h1] at h
          simp only [Except.error.injEq, JsError.thrown.injEq] at h
          exact Or.inr h.symm
  | arr items =>
    have h1 : assemble packageLocator (.arr items) =
        ⟨[], .error (.thrown "No \"vendorize\" found for this package.'")⟩ := rfl
    rw [h1] at h
    simp only [Except.error.injEq, JsError.thrown.injEq] at h
    exact Or.inl h.symm
  | undefined => exact absurd h (by simp [assemble, JsValue.hasProperty, eval_error_bind])
  | null => exact absurd h (by simp [assemble, JsValue.hasProperty, eval_error_bind])
  | bool b => exact absurd h (by simp [assemble, JsValue.hasProperty, eval_error_bind])
  | num a b => exact absurd h (by simp [assemble, JsValue.hasProperty, eval_error_bind])
  | str t => exact absurd h (by simp [assemble, JsValue.hasProperty, eval_error_bind])

/-! ## The lookup, case by case -/

/-- Without the PnP API the guard throws before anything is called. -/
theorem locate_without_pnp (env : Env) (h : env.versionsHasPnp = false) :
    locate env = ⟨[], .error (.thrown "Vendorize requires the Plug'n'Play (PnP) API.")⟩ := by
  simp only [locate, h]
  rfl

/-- With the PnP API, `locate` only calls the PnP API and `require`, and the
only errors it can end with are a collaborator's exception or a `TypeError`:
the `throw` of line 39 is never reached. -/
theorem locate_with_pnp (env : Env) (h : env.versionsHasPnp = true) :
    (∀ ev ∈ (locate env).trace, ev.isPnpOrRead = true) ∧
      ∀ m, (locate env).result ≠ .error (.thrown m) := by
  obtain ⟨hasPnp, imp, find, getInfo, req⟩ := env
  simp only at h
  subst h
  simp only [locate, Bool.not_true, Bool.false_eq_true, if_false, pure_bind_outcome]
  cases imp with
  | error d => simp [call_error_bind, Event.isPnpOrRead]
  | ok u =>
    cases find with
    | error d => simp [call_ok_bind, call_error_bind, Event.isPnpOrRead]
    | ok loc =>
      simp only [call_ok_bind, typeOf_ne_null, Bool.false_eq_true, if_false, pure_bind_outcome]
      cases getInfo loc with
      | error d => simp [call_error_bind, Event.isPnpOrRead]
      | ok info =>
        simp only [call_ok_bind]
        cases hloc : info.get "packageLocation" with
        | error e =>
          have he := get_error _ _ _ hloc
          subst he
          simp [eval_error_bind, Event.isPnpOrRead]
        | ok location =>
          simp only [eval_ok_bind]
          cases req location with
          | error d => simp [call_error_bind, Event.isPnpOrRead]
          | ok pj => simp [call_ok_bind, Event.isPnpOrRead, pure_trace, pure_result]

/-- Once the PnP API is imported and `findPackageLocator` has returned, the next
call is `getPackageInformation` on what it returned, whatever that is. -/
theorem locate_calls_getPackageInformation (getInfo req : JsValue → Except String JsValue)
    (loc : JsValue) :
    ∃ rest, (locate ⟨true, .ok (), .ok loc, getInfo, req⟩).trace =
      [.importPnpapi, .findPackageLocator, .getPackageInformation loc] ++ rest := by
  simp only [locate, Bool.not_true, Bool.false_eq_true, if_false, pure_bind_outcome,
    call_ok_bind, typeOf_ne_null]
  cases getInfo loc with
  | error d => exact ⟨[], rfl⟩
  | ok info => exact ⟨_, rfl⟩

/-! ## The whole module -/

theorem main_of_located (env : Env) (calls : List Event) (packageLocator packageJson : JsValue)
    (h : locate env = ⟨calls, .ok (packageLocator, packageJson)⟩) :
    main env = ⟨calls ++ (assemble packageLocator packageJson).trace,
      (assemble packageLocator packageJson).result⟩ := by
  simp only [main, h]
  rfl

theorem main_of_not_located (env : Env) (e : JsError) (h : (locate env).result = .error e) :
    main env = ⟨(locate env).trace, .error e⟩ := by
  simp only [main]
  exact bind_of_error _ _ _ h

/-- The calls of the lookup come first. -/
theorem main_trace_prefix (env : Env) : ∃ rest, (main env).trace = (locate env).trace ++ rest := by
  cases h : (locate env).result with
  | error e => exact ⟨[], by rw [main_of_not_located env e h]; simp⟩
  | ok p =>
    refine ⟨(assemble p.1 p.2).trace, ?_⟩
    simp only [main]
    rw [bind_trace_of_ok _ _ p h]

/-- Every `throw new Error(...)` that can end the module carries one of three
messages; the message of line 40 is not among them. -/
theorem main_thrown (env : Env) (m : String) (h : (main env).result = .error (.thrown m)) :
    m = "Vendorize requires the Plug'n'Play (PnP) API." ∨
      m = "No \"vendorize\" found for this package.'" ∨
      m = "'vendorize' must either be an array or an object containing a \"packages\" key." := by
  cases hp : env.versionsHasPnp with
  | false =>
    rw [main_of_not_located env _ (by rw [locate_without_pnp env hp])] at h
    simp only [Except.error.injEq, JsError.thrown.injEq] at h
    exact Or.inl h.symm
  | true =>
    cases hl : (locate env).result with
    | error e =>
      rw [main_of_not_located env e hl] at h
      simp only [Except.error.injEq] at h
      subst h
      exact absurd hl ((locate_with_pnp env hp).2 m)
    | ok p =>
      have hm : (main env).result = (assemble p.1 p.2).result := by
        simp only [main]
        rw [bind_result_of_ok _ _ p hl]
      rw [hm] at h
      exact Or.inr (assemble_thrown _ _ _ h)

/-! ## The claims -/

/-- C1, at the failing inputs: when the `vendorize` value is a primitive (a
string, a number, a boolean or `null`), the shape check does not reach its
descriptive `throw`: evaluating `'packages' in` the primitive raises the
engine's `TypeError` first. -/
theorem primitive_block_raises_type_error (packageLocator : JsValue) (s : String) (m e : Int)
    (b : Bool) :
    assemble packageLocator (.obj [("vendorize", .str s)]) =
        ⟨[], .error (.typeError "in" "packages")⟩ ∧
      assemble packageLocator (.obj [("vendorize", .num m e)]) =
        ⟨[], .error (.typeError "in" "packages")⟩ ∧
      assemble packageLocator (.obj [("vendorize", .bool b)]) =
        ⟨[], .error (.typeError "in" "packages")⟩ ∧
      assemble packageLocator (.obj [("vendorize", .null)]) =
        ⟨[], .error (.typeError "in" "packages")⟩ ∧
      (main (sampleEnv (.obj [("vendorize", .str "not-an-array-or-object")]))).result ≠
        .error (.thrown
          "'vendorize' must either be an array or an object containing a \"packages\" key.") :=
  ⟨rfl, rfl, rfl, rfl, fun h => by cases h⟩

/-- C2: once the PnP API is present, the owning package is located and its
`package.json` has the `vendorize` key, the module calls `new Config(...)`, and
likewise `new Vendorize(config)`, exactly when the `vendorize` value is an array
or an object containing a `packages` key; for every other value it ends with an
error and has constructed neither. -/
theorem construction_iff_valid_shape (env : Env) (calls : List Event)
    (packageLocator name block : JsValue) (fields : List (String × JsValue))
    (hlocated : locate env = ⟨calls, .ok (packageLocator, .obj fields)⟩)
    (hname : packageLocator.get "name" = .ok name)
    (hkey : fields.lookup "vendorize" = some block) :
    ((main env).trace.any Event.isNewConfig = true ↔ validBlock block) ∧
      ((main env).trace.any Event.isNewVendorize = true ↔ validBlock block) ∧
      ((∃ config, (main env).result = .ok config) ↔ validBlock block) ∧
      (¬ validBlock block → ∃ e, (main env).result = .error e) := by
  have hpnp : env.versionsHasPnp = true := by
    cases hp : env.versionsHasPnp with
    | true => rfl
    | false =>
      rw [locate_without_pnp env hp] at hlocated
      simp at hlocated
  have hcalls : ∀ ev ∈ calls, ev.isPnpOrRead = true := by
    have := (locate_with_pnp env hpnp).1
    rw [hlocated] at this
    exact this
  have hc1 : calls.any Event.isNewConfig = false := by
    rw [List.any_eq_false]
    intro ev hev
    have := hcalls ev hev
    cases ev <;> simp_all [Event.isPnpOrRead, Event.isNewConfig]
  have hc2 : calls.any Event.isNewVendorize = false := by
    rw [List.any_eq_false]
    intro ev hev
    have := hcalls ev hev
    cases ev <;> simp_all [Event.isPnpOrRead, Event.isNewVendorize]
  rw [main_of_located env calls _ _ hlocated]
  by_cases hv : validBlock block
  · rw [assemble_valid _ _ _ _ hname hkey hv]
    simp [expectedOutcome, List.any_append, hc1, hc2, hv, Event.isNewConfig,
      Event.isNewVendorize]
  · rcases assemble_invalid packageLocator block fields hkey hv with h1 | h1 <;>
      simp [h1, hc1, hc2, hv]

/-- C3: for a valid block the one `new Config(...)` call receives the located
package's `name` and the request list (the block itself when it is an array,
the value of its `packages` key otherwise), unchanged, and the exported
configuration carries both. -/
theorem config_built_from_name_and_requests (packageLocator name block : JsValue)
    (fields : List (String × JsValue))
    (hname : packageLocator.get "name" = .ok name)
    (hkey : fields.lookup "vendorize" = some block) (hv : validBlock block) :
    (assemble packageLocator (.obj fields)).trace.filter Event.isNewConfig =
        [.newConfig name (requestList block)] ∧
      (block.isArray = true → requestList block = block) ∧
      (block.isArray = false → block.get "packages" = .ok (requestList block)) ∧
      ∃ config, (assemble packageLocator (.obj fields)).result = .ok config ∧
        config.ownerName = name ∧ config.requests = requestList block := by
  rw [assemble_valid _ _ _ _ hname hkey hv]
  refine ⟨?_, ?_, ?_, _, rfl, rfl, rfl⟩
  · simp only [expectedOutcome, expectedAssign]
    cases entry "dirName" block <;> cases entry "cleanBefore" block <;>
      cases entry "gitIgnore" block <;> rfl
  · intro h
    cases block <;> simp_all [JsValue.isArray, requestList]
  · intro h
    cases block <;> simp_all [JsValue.isArray, requestList, JsValue.get, validBlock]

/-- C4: for a valid block without the key of an optional field, `index.mjs`
makes no assignment to that field, so the exported configuration holds the
constructor's value for it, which is the documented default; for an array block
the exported configuration is the freshly constructed one. -/
theorem absent_field_keeps_default (packageLocator name block : JsValue)
    (fields : List (String × JsValue)) (F : OptionalField)
    (hname : packageLocator.get "name" = .ok name)
    (hkey : fields.lookup "vendorize" = some block) (hv : validBlock block)
    (habsent : block.hasProperty F.key = .ok false) :
    (assemble packageLocator (.obj fields)).trace.any (Event.isAssignTo F.key) = false ∧
      ∃ config, (assemble packageLocator (.obj fields)).result = .ok config ∧
        F.read config = F.read (Config.new name (requestList block)) ∧
        F.read config = F.documentedDefault ∧
        (block.isArray = true → config = Config.new name block ∧
          config.dirName = .str "vendor" ∧ config.cleanBefore = .bool false ∧
          config.gitIgnore = .bool true) := by
  have hentry := entry_of_absent block F.key habsent
  rw [assemble_valid _ _ _ _ hname hkey hv]
  refine ⟨?_, _, rfl, ?_, ?_, ?_⟩
  · cases F <;> simp only [OptionalField.key] at hentry <;>
      simp only [expectedOutcome, expectedAssign, hentry, OptionalField.key] <;>
      cases entry "dirName" block <;> cases entry "cleanBefore" block <;>
      cases entry "gitIgnore" block <;> rfl
  · cases F <;> simp only [OptionalField.key] at hentry <;>
      simp [expectedConfig, OptionalField.read, Config.new, hentry]
  · cases F <;> simp only [OptionalField.key] at hentry <;>
      simp [expectedConfig, OptionalField.read, OptionalField.documentedDefault, hentry]
  · intro h
    cases block <;> simp_all [JsValue.isArray]
    exact ⟨rfl, rfl, rfl, rfl⟩

/-- C5, at the failing input: when `pnp.findPackageLocator(cwd)` returns `null`
the module goes on to call `pnp.getPackageInformation(null)`, and whatever the
collaborators then do, it does not end with the error of line 40. -/
theorem null_locator_is_not_rejected (getInfo req : JsValue → Except String JsValue) :
    (∃ rest, (main ⟨true, .ok (), .ok .null, getInfo, req⟩).trace =
        [.importPnpapi, .findPackageLocator, .getPackageInformation .null] ++ rest) ∧
      (main ⟨true, .ok (), .ok .null, getInfo, req⟩).result ≠
        .error (.thrown "Could not find the current package location to vendorize into.") := by
  constructor
  · obtain ⟨r1, h1⟩ := locate_calls_getPackageInformation getInfo req .null
    obtain ⟨r2, h2⟩ := main_trace_prefix ⟨true, .ok (), .ok .null, getInfo, req⟩
    exact ⟨r1 ++ r2, by rw [h2, h1, List.append_assoc]⟩
  · intro h
    rcases main_thrown _ _ h with h1 | h1 | h1 <;> exact absurd h1 (by decide)

/-- C7: a `package.json` object without the `vendorize` key ends the assembly at
its first statement with the error `No "vendorize" found for this package.'`,
nothing having been called; a `package.json` object with the key, whatever its
value, never ends with that error. -/
theorem missing_key_error (packageLocator : JsValue) (fields : List (String × JsValue)) :
    (fields.lookup "vendorize" = none →
        assemble packageLocator (.obj fields) =
          ⟨[], .error (.thrown "No \"vendorize\" found for this package.'")⟩) ∧
      (∀ block, fields.lookup "vendorize" = some block →
        (assemble packageLocator (.obj fields)).result ≠
          .error (.thrown "No \"vendorize\" found for this package.'")) := by
  refine ⟨assemble_missing_key packageLocator fields, ?_⟩
  intro block hkey h
  by_cases hv : validBlock block
  · cases hname : packageLocator.get "name" with
    | ok name =>
      rw [assemble_valid _ _ _ _ hname hkey hv] at h
      simp [expectedOutcome] at h
    | error e =>
      rw [assemble_valid_no_name _ _ _ _ hname hkey hv] at h
      have he := get_error _ _ _ hname
      subst he
      simp at h
  · rcases assemble_invalid packageLocator block fields hkey hv with h1 | h1
    · rw [h1] at h
      simp at h
    · rw [h1] at h
      simp only [Except.error.injEq, JsError.thrown.injEq] at h
      exact absurd h (by decide)

/-- C8: for a valid block that has the key of an optional field, `index.mjs`
assigns the value read under that key to the field, and the exported
configuration holds exactly that value, whatever it is. -/
theorem present_field_is_assigned (packageLocator name block value : JsValue)
    (fields : List (String × JsValue)) (F : OptionalField)
    (hname : packageLocator.get "name" = .ok name)
    (hkey : fields.lookup "vendorize" = some block) (hv : validBlock block)
    (hpresent : block.hasProperty F.key = .ok true)
    (hvalue : block.get F.key = .ok value) :
    Event.assign F.key value ∈ (assemble packageLocator (.obj fields)).trace ∧
      ∃ config, (assemble packageLocator (.obj fields)).result = .ok config ∧
        F.read config = value := by
  have hentry := entry_of_present block value F.key hpresent hvalue
  rw [assemble_valid _ _ _ _ hname hkey hv]
  refine ⟨?_, _, rfl, ?_⟩
  · cases F <;> simp only [OptionalField.key] at hentry <;>
      simp [expectedOutcome, expectedAssign, hentry, OptionalField.key]
  · cases F <;> simp only [OptionalField.key] at hentry <;>
      simp [expectedConfig, OptionalField.read, hentry]

/-- C9: when `process.versions` has no `pnp` key the module ends with the error
`Vendorize requires the Plug'n'Play (PnP) API.` having called nothing: no import
of `pnpapi`, no PnP function, no read of `package.json`; this holds whatever the
rest of the surroundings, so also when the `vendorize` block is missing or
malformed. -/
theorem pnp_guard_comes_first (env : Env) (h : env.versionsHasPnp = false) :
    main env = ⟨[], .error (.thrown "Vendorize requires the Plug'n'Play (PnP) API.")⟩ := by
  rw [main_of_not_located env _ (by rw [locate_without_pnp env h])]
  rw [locate_without_pnp env h]

/-- C10: two assemblies whose locators have the same name and whose blocks are
valid, have the same request list and agree on the presence and value of
`dirName`, `cleanBefore` and `gitIgnore` make the same calls and export the same
configuration, whatever else the blocks and the two `package.json` hold. -/
theorem config_depends_only_on_entries (locatorA locatorB name blockA blockB : JsValue)
    (fieldsA fieldsB : List (String × JsValue))
    (hnameA : locatorA.get "name" = .ok name) (hnameB : locatorB.get "name" = .ok name)
    (hkeyA : fieldsA.lookup "vendorize" = some blockA)
    (hkeyB : fieldsB.lookup "vendorize" = some blockB)
    (hvA : validBlock blockA) (hvB : validBlock blockB)
    (hrequests : requestList blockA = requestList blockB)
    (hentries : ∀ F : OptionalField, entry F.key blockA = entry F.key blockB) :
    assemble locatorA (.obj fieldsA) = assemble locatorB (.obj fieldsB) := by
  rw [assemble_valid _ _ _ _ hnameA hkeyA hvA, assemble_valid _ _ _ _ hnameB hkeyB hvB]
  have hd := hentries .dirName
  have hc := hentries .cleanBefore
  have hg := hentries .gitIgnore
  simp only [OptionalField.key] at hd hc hg
  simp only [expectedOutcome, expectedConfig, expectedAssign, hd, hc, hg, hrequests]

/-! ## Instances -/

/-- An array block under the sample surroundings: both constructions are reached. -/
theorem construction_iff_valid_shape_witness :
    validBlock (.arr [.str "left-pad"]) ∧
      (main (sampleEnv arrayManifest)).trace.any Event.isNewConfig = true ∧
      (main (sampleEnv arrayManifest)).trace.any Event.isNewVendorize = true :=
  have h := construction_iff_valid_shape (sampleEnv arrayManifest)
    [.importPnpapi, .findPackageLocator, .getPackageInformation sampleLocator,
      .requirePackageJson (.str "/work/my-project/")]
    sampleLocator (.str "my-project") (.arr [.str "left-pad"])
    [("name", .str "my-project"), ("vendorize", .arr [.str "left-pad"])] rfl rfl rfl
  ⟨trivial, h.1.mpr trivial, h.2.1.mpr trivial⟩

/-- An object block: the constructor receives the project name and the `packages` value. -/
theorem config_built_from_name_and_requests_witness :
    (assemble sampleLocator objectManifest).trace.filter Event.isNewConfig =
      [.newConfig (.str "my-project") (.arr [.str "left-pad"])] :=
  (config_built_from_name_and_requests sampleLocator (.str "my-project")
    (.obj [("packages", .arr [.str "left-pad"]), ("cleanBefore", .bool true),
      ("gitIgnore", .bool false), ("comment", .str "kept for the release")])
    [("name", .str "my-project"), ("version", .str "1.0.0"),
      ("vendorize", .obj [("packages", .arr [.str "left-pad"]), ("cleanBefore", .bool true),
        ("gitIgnore", .bool false), ("comment", .str "kept for the release")])]
    rfl rfl rfl).1

/-- An array block has no `dirName` key and `dirName` is never assigned. -/
theorem absent_field_keeps_default_witness :
    (JsValue.arr [.str "left-pad"]).hasProperty "dirName" = .ok false ∧
      (assemble sampleLocator arrayManifest).trace.any (Event.isAssignTo "dirName") = false :=
  ⟨rfl, (absent_field_keeps_default sampleLocator (.str "my-project") (.arr [.str "left-pad"])
    [("name", .str "my-project"), ("vendorize", .arr [.str "left-pad"])] .dirName
    rfl rfl trivial rfl).1⟩

/-- A manifest without the key, and a manifest whose key holds `null`. -/
theorem missing_key_error_witness :
    assemble sampleLocator bareManifest =
        ⟨[], .error (.thrown "No \"vendorize\" found for this package.'")⟩ ∧
      (assemble sampleLocator (.obj [("vendorize", .null)])).result ≠
        .error (.thrown "No \"vendorize\" found for this package.'") :=
  ⟨(missing_key_error sampleLocator [("name", .str "my-project")]).1 rfl,
    (missing_key_error sampleLocator [("vendorize", .null)]).2 .null rfl⟩

/-- A supplied `gitIgnore: false` is assigned as it is. -/
theorem present_field_is_assigned_witness :
    Event.assign "gitIgnore" (.bool false) ∈ (assemble sampleLocator objectManifest).trace :=
  (present_field_is_assigned sampleLocator (.str "my-project")
    (.obj [("packages", .arr [.str "left-pad"]), ("cleanBefore", .bool true),
      ("gitIgnore", .bool false), ("comment", .str "kept for the release")])
    (.bool false)
    [("name", .str "my-project"), ("version", .str "1.0.0"),
      ("vendorize", .obj [("packages", .arr [.str "left-pad"]), ("cleanBefore", .bool true),
        ("gitIgnore", .bool false), ("comment", .str "kept for the release")])]
    .gitIgnore rfl rfl rfl rfl rfl).1

/-- Without the PnP API and without a `vendorize` key, the PnP error is reported. -/
theorem pnp_guard_comes_first_witness :
    nodeModulesEnv.versionsHasPnp = false ∧
      main nodeModulesEnv =
        ⟨[], .error (.thrown "Vendorize requires the Plug'n'Play (PnP) API.")⟩ :=
  ⟨rfl, pnp_guard_comes_first nodeModulesEnv rfl⟩

/-- An array block and an object block with the same request list, under different manifests. -/
theorem config_depends_only_on_entries_witness :
    assemble sampleLocator arrayManifest =
      assemble (.obj [("name", .str "my-project"), ("reference", .str "npm:2.0.0")])
        (.obj [("private", .bool true),
          ("vendorize", .obj [("packages", .arr [.str "left-pad"]), ("note", .num 1 0)])]) :=
  config_depends_only_on_entries sampleLocator
    (.obj [("name", .str "my-project"), ("reference", .str "npm:2.0.0")]) (.str "my-project")
    (.arr [.str "left-pad"])
    (.obj [("packages", .arr [.str "left-pad"]), ("note", .num 1 0)])
    [("name", .str "my-project"), ("vendorize", .arr [.str "left-pad"])]
    [("private", .bool true),
      ("vendorize", .obj [("packages", .arr [.str "left-pad"]), ("note", .num 1 0)])]
    rfl rfl rfl rfl trivial rfl rfl (fun F => by cases F <;> rfl)

end PnpVendorize
